import Mathlib

/-!
# go-log: a leveled file logger

A shallow embedding of `log.go` (package `log`) and the properties of its
write path.

* `Level` is Go's `type Level int`, embedded as `Int`.
* `Logger` carries the three data fields of the Go struct.  The `mutex` field is
  not part of the sequential state: `log` locks it and unlocks it again on every
  exit path, so between two calls of one thread it is always free.
* The file system and the standard error stream are an explicit `World` which
  every emission threads through; what the operating system and the clock do
  during one call is an explicit `Env` argument of that call.
* `fmt.Sprintf` of the Go standard library is embedded for the directives the
  program uses (`%s`, `%d`, `%v`, `%%` without flags), including what it prints
  for a directive that has no operand left and for operands that are left over.
-/

namespace GoLog

/-! ## Levels -/

/-- Go: `type Level int`. -/
abbrev Level := Int

/-- Go: `debug Level = 0`. -/
def debug : Level := 0
/-- Go: `info Level = 1`. -/
def info : Level := 1
/-- Go: `warn Level = 2`. -/
def warn : Level := 2
/-- Go: `err Level = 3`. -/
def err : Level := 3
/-- Go: `fatal Level = 4`. -/
def fatal : Level := 4

/-- What can stop a call from producing its result. -/
inductive Fault where
  /-- A Go run-time panic: array index out of range. -/
  | indexOutOfRange
  /-- A `fmt` directive outside the embedded part of `fmt.Sprintf`. -/
  | unsupportedDirective
  deriving DecidableEq, Repr

deriving instance DecidableEq for Except

/-- Go: the array literal `levels` of `toString`. -/
def levels : List String := ["DEBUG", "INFO", "WARN", "ERROR", "FATAL"]

/-- Go: an index expression `a[i]` on the array `levels`; it panics when the
index is outside the array. -/
def index (a : List String) (i : Int) : Except Fault String :=
  if i < 0 then .error .indexOutOfRange
  else match a[i.toNat]? with
    | some s => .ok s
    | none => .error .indexOutOfRange

/-- Go: `func (level Level) toString() string`. -/
def Level.toString (level : Level) : Except Fault String :=
  if level < debug ∨ level > fatal then
    index levels debug
  else
    index levels level

/-! ## The part of `fmt.Sprintf` the program uses -/

/-- An operand of a `fmt` call (`interface{}`): a string or an integer. -/
inductive Value where
  | str (s : String)
  | int (n : Int)
  deriving DecidableEq, Repr

/-- Decimal rendering of an integer, as `%d` prints it. -/
def fmtInt (n : Int) : List Char :=
  if n < 0 then '-' :: (Nat.repr n.natAbs).toList else (Nat.repr n.toNat).toList

/-- Go `fmt`: the operand's type name, as printed in a diagnostic. -/
def typeName : Value → List Char
  | .str _ => "string".toList
  | .int _ => "int".toList

/-- Go `fmt`: an operand printed with `%v`. -/
def printV : Value → List Char
  | .str s => s.toList
  | .int n => fmtInt n

/-- Go `fmt`, `printArg`: one operand printed under the verb `verb`; a verb that
does not fit the operand's type prints `%!verb(type=value)`. -/
def printArg (verb : Char) (v : Value) : Except Fault (List Char) :=
  match verb, v with
  | 's', .str s => .ok s.toList
  | 'v', x => .ok (printV x)
  | 'd', .int n => .ok (fmtInt n)
  | 's', .int n => .ok ("%!s(int=".toList ++ fmtInt n ++ [')'])
  | 'd', .str s => .ok ("%!d(string=".toList ++ s.toList ++ [')'])
  | _, _ => .error .unsupportedDirective

/-- Go `fmt`: the operands no directive consumed, as listed inside
`%!(EXTRA ...)`. -/
def extraArgs : List Value → List Char
  | [] => []
  | [v] => typeName v ++ '=' :: printV v
  | v :: rest => typeName v ++ '=' :: printV v ++ ", ".toList ++ extraArgs rest

/-- Go `fmt`, `doPrintf`: text outside directives is copied; `%%` prints a
percent sign; a verb with no operand left prints `%!verb(MISSING)`; a format
ending in `%` prints `%!(NOVERB)`; operands left over at the end are reported
as `%!(EXTRA ...)`. -/
def doPrintf : List Char → List Value → Except Fault (List Char)
  | [], [] => .ok []
  | [], a :: rest => .ok ("%!(EXTRA ".toList ++ extraArgs (a :: rest) ++ [')'])
  | ['%'], a => do
      let tail ← doPrintf [] a
      pure ("%!(NOVERB)".toList ++ tail)
  | '%' :: '%' :: format, a => do
      let tail ← doPrintf format a
      pure ('%' :: tail)
  | '%' :: verb :: format, [] =>
      if verb = 's' ∨ verb = 'd' ∨ verb = 'v' then do
        let tail ← doPrintf format []
        pure ('%' :: '!' :: verb :: "(MISSING)".toList ++ tail)
      else .error .unsupportedDirective
  | '%' :: verb :: format, v :: rest => do
      let out ← printArg verb v
      let tail ← doPrintf format rest
      pure (out ++ tail)
  | c :: format, a => do
      let tail ← doPrintf format a
      pure (c :: tail)

/-- Go: `fmt.Sprintf(format, a...)`. -/
def Sprintf (format : String) (a : List Value) : Except Fault String :=
  (doPrintf format.toList a).map String.mk

/-! ## The logger -/

/-- Go: `type Logger struct`, its data fields. -/
structure Logger where
  filename : String
  level : Level
  timeformat : String
  deriving DecidableEq, Repr

/-- Go: `func NewLogger(filename string, timeformat string) *Logger`. -/
def NewLogger (filename : String) (timeformat : String) : Logger :=
  { filename := filename, level := debug, timeformat := timeformat }

/-- Go: `func (l *Logger) TimeFormat(timeformat string)`. -/
def Logger.TimeFormat (l : Logger) (timeformat : String) : Logger :=
  { l with timeformat := timeformat }

/-- Go: `func (l *Logger) SetLevel(level string)`. -/
def Logger.SetLevel (l : Logger) (level : String) : Logger :=
  match level with
  | "DEBUG" => { l with level := debug }
  | "INFO" => { l with level := info }
  | "WARN" => { l with level := warn }
  | "ERROR" => { l with level := err }
  | "FATAL" => { l with level := fatal }
  | _ => { l with level := debug }

/-! ## The world a call acts on -/

/-- The files, by path (`none`: no such file), and the texts written to
standard error so far, oldest first. -/
structure World where
  files : String → Option String
  stderr : List String

/-- What the clock and the operating system do during one call of `log`. -/
structure Env where
  /-- The call `time.Now().Format(layout)`, as a function of the layout. -/
  now : String → String
  /-- Whether `os.OpenFile` returns an error. -/
  openFails : Bool
  /-- Whether `WriteString` returns an error, and after how many characters. -/
  writeFails : Option Nat
  /-- Whether `Close` returns an error. -/
  closeFails : Bool

/-- The content of the file at `path`, empty when there is no such file. -/
def World.content (w : World) (path : String) : String :=
  (w.files path).getD ""

/-- Go: `os.Stderr.WriteString(text)`. -/
def World.writeStderr (w : World) (text : String) : World :=
  { w with stderr := w.stderr ++ [text] }

/-- Go: a successful `os.OpenFile(path, os.O_CREATE|os.O_WRONLY|os.O_APPEND, 0660)`
followed by a write of `text`: the file exists afterwards and holds what it held
before followed by `text`. -/
def World.appendFile (w : World) (path : String) (text : String) : World :=
  { w with files := fun p => if p = path then some (w.content path ++ text) else w.files p }

/-- Go: the deferred function of `log`, which closes the file. -/
def Logger.closeLogFile (env : Env) (l : Logger) (w : World) : Except Fault World :=
  if env.closeFails then do
    let text ← Sprintf "Closing failed on log file: %s\n" [.str l.filename]
    pure (w.writeStderr text)
  else
    pure w

/-- Go: `func (l *Logger) log(level Level, msg string)`. -/
def Logger.log (env : Env) (l : Logger) (level : Level) (msg : String) (w : World) :
    Except Fault World :=
  if level < l.level then
    pure w
  else do
    let name ← Level.toString level
    let fmtMsg ← Sprintf "%s %s: %s%s\n" [.str (env.now l.timeformat), .str name, .str msg]
    if env.openFails then
      let text ← Sprintf "go-log: %s%s\n" [.str fmtMsg]
      pure (w.writeStderr text)
    else
      match env.writeFails with
      | none => l.closeLogFile env (w.appendFile l.filename fmtMsg)
      | some n =>
        let text ← Sprintf "Writing failed to log file: %s\n" [.str l.filename]
        l.closeLogFile env ((w.appendFile l.filename (fmtMsg.take n)).writeStderr text)

/-- Go: `func (l *Logger) Debug(msg string)`. -/
def Logger.Debug (env : Env) (l : Logger) (msg : String) (w : World) : Except Fault World :=
  l.log env debug msg w

/-- Go: `func (l *Logger) Debugf(msg string, values ...interface{})`. -/
def Logger.Debugf (env : Env) (l : Logger) (msg : String) (values : List Value) (w : World) :
    Except Fault World := do
  let message ← Sprintf msg values
  l.log env debug message w

/-- Go: `func (l *Logger) Info(msg string)`. -/
def Logger.Info (env : Env) (l : Logger) (msg : String) (w : World) : Except Fault World :=
  l.log env info msg w

/-- Go: `func (l *Logger) Infof(msg string, values ...interface{})`. -/
def Logger.Infof (env : Env) (l : Logger) (msg : String) (values : List Value) (w : World) :
    Except Fault World := do
  let message ← Sprintf msg values
  l.log env info message w

/-- Go: `func (l *Logger) Warn(msg string)`. -/
def Logger.Warn (env : Env) (l : Logger) (msg : String) (w : World) : Except Fault World :=
  l.log env warn msg w

/-- Go: `func (l *Logger) Warnf(msg string, values ...interface{})`. -/
def Logger.Warnf (env : Env) (l : Logger) (msg : String) (values : List Value) (w : World) :
    Except Fault World := do
  let message ← Sprintf msg values
  l.log env warn message w

/-- Go: `func (l *Logger) Error(msg string)`. -/
def Logger.Error (env : Env) (l : Logger) (msg : String) (w : World) : Except Fault World :=
  l.log env err msg w

/-- Go: `func (l *Logger) Errorf(msg string, values ...interface{})`. -/
def Logger.Errorf (env : Env) (l : Logger) (msg : String) (values : List Value) (w : World) :
    Except Fault World := do
  let message ← Sprintf msg values
  l.log env err message w

/-- Go: `func (l *Logger) Fatal(msg string)`. -/
def Logger.Fatal (env : Env) (l : Logger) (msg : String) (w : World) : Except Fault World :=
  l.log env fatal msg w

/-- Go: `func (l *Logger) Fatalf(msg string, values ...interface{})`. -/
def Logger.Fatalf (env : Env) (l : Logger) (msg : String) (values : List Value) (w : World) :
    Except Fault World := do
  let message ← Sprintf msg values
  l.log env fatal message w

/-! ## Callers and observations -/

/-- One call of `log` as a caller makes it: what the clock and the operating
system do during the call, the severity and the message. -/
structure Emission where
  env : Env
  level : Level
  msg : String

/-- A single thread calling `log` on one logger for each emission in turn. -/
def Logger.logAll (l : Logger) : List Emission → World → Except Fault World
  | [], w => pure w
  | e :: rest, w => do
      let w1 ← l.log e.env e.level e.msg w
      l.logAll rest w1

/-- A call of one of the exported methods of a logger. -/
inductive Call where
  | SetLevel (level : String)
  | TimeFormat (timeformat : String)
  | Debug (msg : String)
  | Debugf (msg : String) (values : List Value)
  | Info (msg : String)
  | Infof (msg : String) (values : List Value)
  | Warn (msg : String)
  | Warnf (msg : String) (values : List Value)
  | Error (msg : String)
  | Errorf (msg : String) (values : List Value)
  | Fatal (msg : String)
  | Fatalf (msg : String) (values : List Value)

/-- The logger after a call: `SetLevel` and `TimeFormat` assign a field; the
emission methods and `log` assign none. -/
def Call.after (l : Logger) : Call → Logger
  | .SetLevel level => l.SetLevel level
  | .TimeFormat timeformat => l.TimeFormat timeformat
  | _ => l

/-- The logger after a finite sequence of calls, made in order. -/
def Logger.afterCalls (l : Logger) (calls : List Call) : Logger :=
  calls.foldl Call.after l

/-- The number of positions of `s` at which `pat` occurs. -/
def occurrences (pat : String) (s : String) : Nat :=
  s.toList.tails.countP (fun t => pat.toList.isPrefixOf t)

/-- The number of newline characters of a text: its newline-terminated lines. -/
def lineCount (s : String) : Nat :=
  s.toList.count '\n'

/-- The file at `path` holds in `w1` what it held in `w` followed by one more
text that ends in a newline. -/
def World.AppendedLine (w : World) (w1 : World) (path : String) : Prop :=
  ∃ line : String, line.data.getLast? = some '\n' ∧
    w1.files path = some (w.content path ++ line)

/-- The part of an instant that the layouts below read. -/
structure Clock where
  day : Nat
  minute : Nat

/-- Go `time`: the characters at which a reference element of a layout can
start. -/
def layoutStarts : List Char :=
  ['J', 'M', '0', '1', '2', '3', '4', '5', 'P', 'p', '-', 'Z', '_', '.', ',']

/-- Go `time`, `Time.Format` on a layout made of literal characters and of the
reference elements `2` (day of the month) and `4` (minute), both printed without
padding; `none` for a layout with any other reference element. -/
def Clock.appendFormat (c : Clock) : List Char → Option (List Char)
  | [] => some []
  | '4' :: layout => (c.appendFormat layout).map (fun out => (Nat.repr c.minute).toList ++ out)
  | '2' :: '0' :: '0' :: '6' :: _ => none
  | '2' :: layout => (c.appendFormat layout).map (fun out => (Nat.repr c.day).toList ++ out)
  | ch :: layout =>
      if ch ∈ layoutStarts then none else (c.appendFormat layout).map (fun out => ch :: out)

/-- Go `time`: `t.Format(layout)` for the layouts `Clock.appendFormat` covers; a
layout outside them is not rendered here (the empty text stands for it). -/
def Clock.Format (c : Clock) (layout : String) : String :=
  match c.appendFormat layout.toList with
  | some out => String.mk out
  | none => ""

/-- A call during which opening, writing and closing all succeed, made at the
instant `c`. -/
def Clock.succeeding (c : Clock) : Env :=
  { now := c.Format, openFails := false, writeFails := none, closeFails := false }

/-- A call during which `os.OpenFile` fails, made at the instant `c`. -/
def Clock.unopenable (c : Clock) : Env :=
  { now := c.Format, openFails := true, writeFails := none, closeFails := false }

/-- A world with no file and nothing on standard error yet. -/
def World.empty : World :=
  { files := fun _ => none, stderr := [] }

/-- The file at `path` after a call, `none` when the call did not return or
there is no such file. -/
def fileAfter (r : Except Fault World) (path : String) : Option String :=
  match r with
  | .ok w => w.files path
  | .error _ => none

/-- The texts on standard error after a call, `none` when the call did not
return. -/
def stderrAfter (r : Except Fault World) : Option (List String) :=
  match r with
  | .ok w => some w.stderr
  | .error _ => none

end GoLog

/-! ## Properties -/

namespace GoLog

/-! ### What the `fmt` calls of `log` print -/

theorem Sprintf_line (t n m : String) :
    Sprintf "%s %s: %s%s\n" [.str t, .str n, .str m]
      = .ok (t ++ " " ++ n ++ ": " ++ m ++ "%!s(MISSING)\n") := by
  simp only [Sprintf, String.toList]
  simp [doPrintf, printArg, Except.map, bind, Except.bind, pure, Except.pure]
  apply String.ext
  simp

theorem Sprintf_fallback (m : String) :
    Sprintf "go-log: %s%s\n" [.str m] = .ok ("go-log: " ++ m ++ "%!s(MISSING)\n") := by
  simp only [Sprintf, String.toList]
  simp [doPrintf, printArg, Except.map, bind, Except.bind, pure, Except.pure]
  apply String.ext
  simp

theorem Sprintf_closing (path : String) :
    Sprintf "Closing failed on log file: %s\n" [.str path]
      = .ok ("Closing failed on log file: " ++ path ++ "\n") := by
  simp only [Sprintf, String.toList]
  simp [doPrintf, printArg, Except.map, bind, Except.bind, pure, Except.pure]
  apply String.ext
  simp

theorem Sprintf_writing (path : String) :
    Sprintf "Writing failed to log file: %s\n" [.str path]
      = .ok ("Writing failed to log file: " ++ path ++ "\n") := by
  simp only [Sprintf, String.toList]
  simp [doPrintf, printArg, Except.map, bind, Except.bind, pure, Except.pure]
  apply String.ext
  simp

/-! ### Level names -/

theorem toString_of_outside (level : Level) (h : level < 0 ∨ 4 < level) :
    Level.toString level = .ok "DEBUG" := by
  unfold Level.toString
  rw [if_pos (by simpa [debug, fatal] using h)]
  decide

theorem toString_returns (level : Level) :
    ∃ name, Level.toString level = .ok name ∧ name ∈ levels := by
  by_cases h : level < 0 ∨ 4 < level
  · exact ⟨"DEBUG", toString_of_outside level h, by decide⟩
  · simp only [not_or, not_lt] at h
    obtain ⟨h0, h4⟩ := h
    interval_cases level <;> simp [Level.toString, debug, fatal, index, levels]

/-! ### The write path -/

theorem closeLogFile_returns (env : Env) (l : Logger) (w : World) :
    ∃ w1, l.closeLogFile env w = .ok w1 ∧ w1.files = w.files ∧
      w1.stderr = w.stderr ++
        (if env.closeFails then ["Closing failed on log file: " ++ l.filename ++ "\n"] else []) := by
  unfold Logger.closeLogFile
  cases env.closeFails
  · exact ⟨w, rfl, rfl, by simp⟩
  · refine ⟨w.writeStderr ("Closing failed on log file: " ++ l.filename ++ "\n"), ?_, rfl, by
      simp [World.writeStderr]⟩
    simp [Sprintf_closing, bind, Except.bind, pure, Except.pure]

theorem log_filtered (env : Env) (l : Logger) (level : Level) (msg : String) (w : World)
    (h : level < l.level) : l.log env level msg w = .ok w := by
  unfold Logger.log
  rw [if_pos h]
  rfl

theorem log_written (env : Env) (l : Logger) (level : Level) (msg : String) (w : World)
    (h : l.level ≤ level) (hopen : env.openFails = false) (hwrite : env.writeFails = none) :
    ∃ w1 name, l.log env level msg w = .ok w1 ∧ Level.toString level = .ok name ∧
      w1.files = (w.appendFile l.filename
        (env.now l.timeformat ++ " " ++ name ++ ": " ++ msg ++ "%!s(MISSING)\n")).files ∧
      w1.stderr = w.stderr ++
        (if env.closeFails then ["Closing failed on log file: " ++ l.filename ++ "\n"] else []) := by
  obtain ⟨name, hname, -⟩ := toString_returns level
  obtain ⟨w1, hw1, hfiles, herr⟩ := closeLogFile_returns env l (w.appendFile l.filename
    (env.now l.timeformat ++ " " ++ name ++ ": " ++ msg ++ "%!s(MISSING)\n"))
  refine ⟨w1, name, ?_, hname, hfiles, herr⟩
  unfold Logger.log
  rw [if_neg (not_lt.mpr h)]
  simp [hname, Sprintf_line, hopen, hwrite, hw1, bind, Except.bind]

theorem log_unopenable (env : Env) (l : Logger) (level : Level) (msg : String) (w : World)
    (h : l.level ≤ level) (hopen : env.openFails = true) :
    ∃ name, Level.toString level = .ok name ∧
      l.log env level msg w = .ok (w.writeStderr ("go-log: " ++
        (env.now l.timeformat ++ " " ++ name ++ ": " ++ msg ++ "%!s(MISSING)\n") ++
        "%!s(MISSING)\n")) := by
  obtain ⟨name, hname, -⟩ := toString_returns level
  refine ⟨name, hname, ?_⟩
  unfold Logger.log
  rw [if_neg (not_lt.mpr h)]
  simp [hname, Sprintf_line, Sprintf_fallback, hopen, bind, Except.bind, pure, Except.pure]

theorem getLast_of_line (a : String) :
    (a ++ "%!s(MISSING)\n").data.getLast? = some '\n' := by
  simp [String.data_append, List.getLast?_append]

theorem content_appendFile (w : World) (path text : String) :
    (w.appendFile path text).content path = w.content path ++ text := by
  simp [World.content, World.appendFile]

theorem String_append_ne_self (a b : String) (hb : b ≠ "") : a ++ b ≠ a := by
  intro h
  have hl := congrArg String.length h
  rw [String.length_append] at hl
  have h0 : b.length = 0 := by omega
  obtain ⟨d⟩ := b
  cases d with
  | nil => exact hb rfl
  | cons c d => exact absurd h0 (Nat.succ_ne_zero d.length)

theorem log_write_failed (env : Env) (l : Logger) (level : Level) (msg : String) (w : World)
    (n : Nat) (h : l.level ≤ level) (hopen : env.openFails = false)
    (hwrite : env.writeFails = some n) :
    ∃ w1, l.log env level msg w = .ok w1 ∧
      w1.stderr = w.stderr ++ ["Writing failed to log file: " ++ l.filename ++ "\n"] ++
        (if env.closeFails then ["Closing failed on log file: " ++ l.filename ++ "\n"] else []) := by
  obtain ⟨name, hname, -⟩ := toString_returns level
  obtain ⟨w1, hw1, -, herr⟩ := closeLogFile_returns env l ((w.appendFile l.filename
    ((env.now l.timeformat ++ " " ++ name ++ ": " ++ msg ++ "%!s(MISSING)\n").take n)).writeStderr
      ("Writing failed to log file: " ++ l.filename ++ "\n"))
  refine ⟨w1, ?_, herr⟩
  unfold Logger.log
  rw [if_neg (not_lt.mpr h)]
  simp [hname, Sprintf_line, Sprintf_writing, hopen, hwrite, hw1, bind, Except.bind]

/-- A call of `log` that passes the filter leaves a trace: it never returns the
world it was given. -/
theorem log_unfiltered_leaves_trace (env : Env) (l : Logger) (level : Level) (msg : String)
    (w : World) (h : l.level ≤ level) : l.log env level msg w ≠ .ok w := by
  intro hlog
  cases hopen : env.openFails with
  | true =>
    obtain ⟨name, -, hres⟩ := log_unopenable env l level msg w h hopen
    rw [hlog] at hres
    have hlen := congrArg (fun w1 => w1.stderr.length) (Except.ok.inj hres)
    simp [World.writeStderr] at hlen
  | false =>
    cases hwrite : env.writeFails with
    | none =>
      obtain ⟨w1, name, hres, -, hfiles, -⟩ := log_written env l level msg w h hopen hwrite
      rw [hlog] at hres
      have hw : w = w1 := Except.ok.inj hres
      subst hw
      have hfile := congrFun hfiles l.filename
      have hget : w.content l.filename = (w.files l.filename).getD "" := rfl
      rw [hfile] at hget
      simp only [World.appendFile, if_true, Option.getD_some] at hget
      refine absurd hget.symm (String_append_ne_self _ _ ?_)
      intro hempty
      have hlast := getLast_of_line (env.now l.timeformat ++ " " ++ name ++ ": " ++ msg)
      rw [hempty] at hlast
      simp at hlast
    | some n =>
      obtain ⟨w1, hres, herr⟩ := log_write_failed env l level msg w n h hopen hwrite
      rw [hlog] at hres
      have hw : w = w1 := Except.ok.inj hres
      subst hw
      have hlen := congrArg List.length herr
      simp at hlen

/-! ### Threshold of a reachable logger -/

theorem SetLevel_level_range (l : Logger) (s : String) :
    debug ≤ (l.SetLevel s).level ∧ (l.SetLevel s).level ≤ fatal := by
  unfold Logger.SetLevel
  split <;> simp [debug, info, warn, err, fatal]

theorem afterCalls_level_range (calls : List Call) (l : Logger)
    (h : debug ≤ l.level ∧ l.level ≤ fatal) :
    debug ≤ (l.afterCalls calls).level ∧ (l.afterCalls calls).level ≤ fatal := by
  induction calls generalizing l with
  | nil => exact h
  | cons c rest ih =>
    have hstep : debug ≤ (Call.after l c).level ∧ (Call.after l c).level ≤ fatal := by
      cases c <;> first | exact SetLevel_level_range l _ | exact h
    exact ih (Call.after l c) hstep

/-! ### Occurrences of a text -/

theorem isPrefixOf_append_space (pat : List Char) (hp : ' ' ∉ pat) (xs r : List Char) :
    pat.isPrefixOf (xs ++ ' ' :: r) = pat.isPrefixOf xs := by
  induction pat generalizing xs with
  | nil => simp
  | cons c p ih =>
    have hc : c ≠ ' ' := fun hc => hp (by simp [hc])
    have hp1 : ' ' ∉ p := fun hm => hp (List.mem_cons_of_mem c hm)
    cases xs with
    | nil => simp [List.isPrefixOf, hc]
    | cons x xs => simp [List.isPrefixOf, ih hp1 xs]

theorem countP_tails_append_space (pat : List Char) (hp : ' ' ∉ pat) (hne : pat ≠ [])
    (xs r : List Char) :
    (xs ++ ' ' :: r).tails.countP (fun t => pat.isPrefixOf t)
      = xs.tails.countP (fun t => pat.isPrefixOf t)
        + (' ' :: r).tails.countP (fun t => pat.isPrefixOf t) := by
  induction xs with
  | nil =>
    cases pat with
    | nil => exact absurd rfl hne
    | cons c p => simp [List.tails, List.countP_cons, List.isPrefixOf]
  | cons x xs ih =>
    have hhead := isPrefixOf_append_space pat hp (x :: xs) r
    have e1 : (x :: xs ++ ' ' :: r).tails = (x :: xs ++ ' ' :: r) :: (xs ++ ' ' :: r).tails := rfl
    have e2 : (x :: xs).tails = (x :: xs) :: xs.tails := rfl
    rw [e1, e2, List.countP_cons, List.countP_cons, ih, hhead]
    omega

/-! ### Filtering -/

/-- C1: for every logger with threshold `T = l.level`, every severity `S` (the
five named ones included) and every message, when the file can be opened and
written the call `l.log(S, m)` returns, and it appends a newline-terminated text
to the file if and only if `S ≥ T`; when `S < T` the world is unchanged: the file
keeps its content and nothing is written to standard error. No other file
changes in either case. -/
theorem log_appends_iff_at_or_above_threshold (env : Env) (l : Logger) (S : Level)
    (m : String) (w : World) (hopen : env.openFails = false) (hwrite : env.writeFails = none) :
    ∃ w1, l.log env S m w = .ok w1 ∧
      (w.AppendedLine w1 l.filename ↔ l.level ≤ S) ∧
      (S < l.level → w1 = w) ∧
      (∀ path, path ≠ l.filename → w1.files path = w.files path) := by
  by_cases h : l.level ≤ S
  · obtain ⟨w1, name, hlog, -, hfiles, -⟩ := log_written env l S m w h hopen hwrite
    refine ⟨w1, hlog, ⟨fun _ => h, fun _ =>
      ⟨env.now l.timeformat ++ " " ++ name ++ ": " ++ m ++ "%!s(MISSING)\n", ?_, ?_⟩⟩,
      fun hlt => absurd h (not_le.mpr hlt), ?_⟩
    · exact getLast_of_line _
    · rw [hfiles]
      simp [World.appendFile]
    · intro path hpath
      rw [hfiles]
      simp [World.appendFile, hpath]
  · have hlt : S < l.level := not_le.mp h
    refine ⟨w, log_filtered env l S m w hlt, ⟨?_, fun h1 => absurd h1 h⟩, fun _ => rfl,
      fun _ _ => rfl⟩
    rintro ⟨line, hlast, hfile⟩
    have hne : line ≠ "" := by
      rintro rfl
      simp at hlast
    have hc : w.content l.filename = w.content l.filename ++ line := by
      have hget : w.content l.filename = (w.files l.filename).getD "" := rfl
      rw [hfile, Option.getD_some] at hget
      exact hget
    exact absurd hc.symm (String_append_ne_self _ _ hne)

/-- C1, at a logger with threshold WARN: an ERROR message is appended to the
file. -/
theorem log_appends_iff_at_or_above_threshold_witness :
    ((Clock.succeeding ⟨2, 4⟩).openFails = false ∧ (Clock.succeeding ⟨2, 4⟩).writeFails = none) ∧
    ∃ w1, ((NewLogger "a.log" "T").SetLevel "WARN").log (Clock.succeeding ⟨2, 4⟩) err "disk"
        World.empty = .ok w1 ∧
      (World.empty.AppendedLine w1 ((NewLogger "a.log" "T").SetLevel "WARN").filename ↔
        ((NewLogger "a.log" "T").SetLevel "WARN").level ≤ err) ∧
      (err < ((NewLogger "a.log" "T").SetLevel "WARN").level → w1 = World.empty) ∧
      (∀ path, path ≠ ((NewLogger "a.log" "T").SetLevel "WARN").filename →
        w1.files path = World.empty.files path) :=
  ⟨⟨rfl, rfl⟩, log_appends_iff_at_or_above_threshold (Clock.succeeding ⟨2, 4⟩)
    ((NewLogger "a.log" "T").SetLevel "WARN") err "disk" World.empty rfl rfl⟩

/-! ### The rendered line -/

/-- C2: `Info("hello")` on a fresh logger whose time format renders as `T`
writes `T INFO: hello%!s(MISSING)` and a newline to the file, not
`T INFO: hello` and a newline: the fourth `%s` of the format has no operand and
`fmt.Sprintf` prints `%!s(MISSING)` for it. -/
theorem log_line_carries_missing_operand_text :
    fileAfter ((NewLogger "a.log" "T").Info (Clock.succeeding ⟨2, 4⟩) "hello" World.empty) "a.log"
        = some "T INFO: hello%!s(MISSING)\n" ∧
      fileAfter ((NewLogger "a.log" "T").Info (Clock.succeeding ⟨2, 4⟩) "hello" World.empty) "a.log"
        ≠ some "T INFO: hello\n" := by
  decide

/-! ### Configuration -/

/-- C3: after `SetLevel(s)` the threshold is DEBUG, INFO, WARN, ERROR or FATAL
when `s` is exactly that name, and DEBUG for every other string, lowercase names
and the empty string included, whatever the threshold was before. `SetLevel` is
a total function of the logger and the string: it has no failure to signal. -/
theorem SetLevel_threshold (l : Logger) (s : String) :
    (l.SetLevel "DEBUG").level = debug ∧ (l.SetLevel "INFO").level = info ∧
      (l.SetLevel "WARN").level = warn ∧ (l.SetLevel "ERROR").level = err ∧
      (l.SetLevel "FATAL").level = fatal ∧
      (s ∉ ["DEBUG", "INFO", "WARN", "ERROR", "FATAL"] → (l.SetLevel s).level = debug) ∧
      (l.SetLevel "debug").level = debug ∧ (l.SetLevel "info").level = debug ∧
      (l.SetLevel "warn").level = debug ∧ (l.SetLevel "error").level = debug ∧
      (l.SetLevel "fatal").level = debug ∧ (l.SetLevel "").level = debug := by
  refine ⟨rfl, rfl, rfl, rfl, rfl, ?_, rfl, rfl, rfl, rfl, rfl, rfl⟩
  intro hs
  simp only [List.mem_cons, List.mem_singleton, List.not_mem_nil, or_false, not_or] at hs
  unfold Logger.SetLevel
  split <;> simp_all

/-- C3, at a logger whose threshold is FATAL and the string `Warn`: the
threshold becomes DEBUG. -/
theorem SetLevel_threshold_witness :
    "Warn" ∉ ["DEBUG", "INFO", "WARN", "ERROR", "FATAL"] ∧
      (((NewLogger "a.log" "T").SetLevel "FATAL").SetLevel "Warn").level = debug :=
  ⟨by decide,
    (SetLevel_threshold ((NewLogger "a.log" "T").SetLevel "FATAL") "Warn").2.2.2.2.2.1 (by decide)⟩

/-- C8: a second `SetLevel` overrides the first and a second `TimeFormat`
overrides the first, so every later emission behaves as after the last call
alone; `SetLevel` leaves the path and the time format as they were and
`TimeFormat` leaves the path and the threshold as they were. -/
theorem last_configuration_wins (l : Logger) (a b : String) :
    (l.SetLevel a).SetLevel b = l.SetLevel b ∧
      (l.TimeFormat a).TimeFormat b = l.TimeFormat b ∧
      (∀ env S m w, ((l.SetLevel a).SetLevel b).log env S m w = (l.SetLevel b).log env S m w) ∧
      (∀ env S m w, ((l.TimeFormat a).TimeFormat b).log env S m w
        = (l.TimeFormat b).log env S m w) ∧
      (l.SetLevel a).filename = l.filename ∧ (l.SetLevel a).timeformat = l.timeformat ∧
      (l.TimeFormat a).filename = l.filename ∧ (l.TimeFormat a).level = l.level ∧
      (l.TimeFormat a).timeformat = a := by
  have hset : ∀ (k : Logger) (s : String),
      (k.SetLevel s).filename = k.filename ∧ (k.SetLevel s).timeformat = k.timeformat := by
    intro k s
    unfold Logger.SetLevel
    split <;> exact ⟨rfl, rfl⟩
  have h1 : (l.SetLevel a).SetLevel b = l.SetLevel b := by
    have ha := hset l a
    unfold Logger.SetLevel at ha ⊢
    split <;> simp_all
  have h2 : (l.TimeFormat a).TimeFormat b = l.TimeFormat b := rfl
  refine ⟨h1, h2, ?_, ?_, (hset l a).1, (hset l a).2, rfl, rfl, rfl⟩
  · intro env S m w
    rw [h1]
  · intro env S m w
    rw [h2]

/-! ### Level names -/

/-- C7: `toString` returns `DEBUG`, `INFO`, `WARN`, `ERROR`, `FATAL` for the
levels 0, 1, 2, 3, 4, and `DEBUG` for every level below 0 or above 4; it returns
for every level: the index into the array of names is never out of range. -/
theorem toString_names (level : Level) :
    Level.toString 0 = .ok "DEBUG" ∧ Level.toString 1 = .ok "INFO" ∧
      Level.toString 2 = .ok "WARN" ∧ Level.toString 3 = .ok "ERROR" ∧
      Level.toString 4 = .ok "FATAL" ∧
      (level < 0 ∨ 4 < level → Level.toString level = .ok "DEBUG") ∧
      (∃ name, Level.toString level = .ok name) ∧
      Level.toString level ≠ .error .indexOutOfRange := by
  obtain ⟨name, hname, -⟩ := toString_returns level
  refine ⟨by decide, by decide, by decide, by decide, by decide, toString_of_outside level,
    ⟨name, hname⟩, ?_⟩
  rw [hname]
  exact fun h => by cases h

/-- C7, at the level 7: the name is `DEBUG`. -/
theorem toString_names_witness :
    ((7 : Level) < 0 ∨ 4 < (7 : Level)) ∧ Level.toString 7 = .ok "DEBUG" :=
  ⟨by decide, (toString_names 7).2.2.2.2.2.1 (by decide)⟩

/-! ### Sequences of emissions -/

/-- C4, as stated, fails: one call `Info("a\nb")`, above the threshold and with
open and write succeeding, leaves two lines in a file that did not exist, not
one. -/
theorem logAll_one_call_two_lines :
    fileAfter ((NewLogger "a.log" "T").logAll [⟨Clock.succeeding ⟨2, 4⟩, info, "a\nb"⟩]
        World.empty) "a.log" = some "T INFO: a\nb%!s(MISSING)\n" ∧
      lineCount "T INFO: a\nb%!s(MISSING)\n" = 2 ∧
      [(⟨Clock.succeeding ⟨2, 4⟩, info, "a\nb"⟩ : Emission)].length = 1 := by
  decide

/-- C4, amended: after `N` calls of `log` made in turn on one logger, each at or
above the threshold and with open and write succeeding, every call has returned
and the file holds its previous content followed by exactly `N` records in call
order; the `i`-th record starts with the rendered time, a space, the level name,
a colon, a space and the message of the `i`-th call, and ends with a newline.
Nothing of the previous content is lost. -/
theorem logAll_appends_records (l : Logger) (calls : List Emission) (w : World)
    (h : ∀ e ∈ calls, l.level ≤ e.level ∧ e.env.openFails = false ∧ e.env.writeFails = none) :
    ∃ w1 records, l.logAll calls w = .ok w1 ∧
      w1.content l.filename = records.foldl (fun file r => file ++ r) (w.content l.filename) ∧
      records.length = calls.length ∧
      List.Forall₂ (fun (e : Emission) (r : String) => ∃ name rest,
        Level.toString e.level = .ok name ∧
        r = e.env.now l.timeformat ++ " " ++ name ++ ": " ++ e.msg ++ rest ++ "\n")
        calls records := by
  induction calls generalizing w with
  | nil => exact ⟨w, [], rfl, rfl, rfl, List.Forall₂.nil⟩
  | cons e rest ih =>
    obtain ⟨hlevel, hopen, hwrite⟩ := h e (List.mem_cons_self e rest)
    obtain ⟨w1, name, hlog, hname, hfiles, -⟩ := log_written e.env l e.level e.msg w hlevel hopen hwrite
    obtain ⟨w2, records, hrun, hcontent, hlen, hall⟩ :=
      ih w1 (fun e1 he1 => h e1 (List.mem_cons_of_mem e he1))
    have hw1 : w1.content l.filename = w.content l.filename ++
        (e.env.now l.timeformat ++ " " ++ name ++ ": " ++ e.msg ++ "%!s(MISSING)\n") := by
      rw [← content_appendFile]
      simp only [World.content, hfiles]
    refine ⟨w2, (e.env.now l.timeformat ++ " " ++ name ++ ": " ++ e.msg ++ "%!s(MISSING)\n")
      :: records, ?_, ?_, ?_, List.Forall₂.cons ⟨name, "%!s(MISSING)", hname, ?_⟩ hall⟩
    · simp [Logger.logAll, hlog, hrun, bind, Except.bind]
    · rw [List.foldl_cons, ← hw1]
      exact hcontent
    · simp [hlen]
    · rw [String.append_assoc _ "%!s(MISSING)" "\n"]
      rfl

/-- C4, amended, at two calls on a fresh logger, `Info("a\nb")` and then
`Error("c")`. -/
theorem logAll_appends_records_witness :
    (∀ e ∈ [(⟨Clock.succeeding ⟨2, 4⟩, info, "a\nb"⟩ : Emission),
        ⟨Clock.succeeding ⟨2, 4⟩, err, "c"⟩],
      (NewLogger "a.log" "T").level ≤ e.level ∧ e.env.openFails = false ∧
        e.env.writeFails = none) ∧
    ∃ w1 records, (NewLogger "a.log" "T").logAll [⟨Clock.succeeding ⟨2, 4⟩, info, "a\nb"⟩,
        ⟨Clock.succeeding ⟨2, 4⟩, err, "c"⟩] World.empty = .ok w1 ∧
      w1.content (NewLogger "a.log" "T").filename = records.foldl (fun file r => file ++ r)
        (World.empty.content (NewLogger "a.log" "T").filename) ∧
      records.length = [(⟨Clock.succeeding ⟨2, 4⟩, info, "a\nb"⟩ : Emission),
        ⟨Clock.succeeding ⟨2, 4⟩, err, "c"⟩].length ∧
      List.Forall₂ (fun (e : Emission) (r : String) => ∃ name rest,
        Level.toString e.level = .ok name ∧
        r = e.env.now (NewLogger "a.log" "T").timeformat ++ " " ++ name ++ ": " ++ e.msg
          ++ rest ++ "\n")
        [⟨Clock.succeeding ⟨2, 4⟩, info, "a\nb"⟩, ⟨Clock.succeeding ⟨2, 4⟩, err, "c"⟩] records :=
  have hcalls : ∀ e ∈ [(⟨Clock.succeeding ⟨2, 4⟩, info, "a\nb"⟩ : Emission),
      ⟨Clock.succeeding ⟨2, 4⟩, err, "c"⟩],
      (NewLogger "a.log" "T").level ≤ e.level ∧ e.env.openFails = false ∧
        e.env.writeFails = none := by
    intro e he
    simp only [List.mem_cons, List.mem_singleton, List.not_mem_nil, or_false] at he
    rcases he with rfl | rfl <;> exact ⟨by decide, rfl, rfl⟩
  ⟨hcalls, logAll_appends_records (NewLogger "a.log" "T") _ World.empty hcalls⟩

/-! ### When the file cannot be opened -/

/-- C5: `Info("hello")` on a fresh logger whose file cannot be opened returns,
leaves no file behind and writes exactly one text to standard error; that text
is `go-log: `, the rendered line with its newline, then `%!s(MISSING)` and a
newline, not `go-log: `, the rendered line and a newline: the second `%s` of the
fallback format has no operand. -/
theorem fallback_text_carries_missing_operand_text :
    stderrAfter ((NewLogger "a.log" "T").Info (Clock.unopenable ⟨2, 4⟩) "hello" World.empty)
        = some ["go-log: " ++ "T INFO: hello%!s(MISSING)\n" ++ "%!s(MISSING)\n"] ∧
      stderrAfter ((NewLogger "a.log" "T").Info (Clock.unopenable ⟨2, 4⟩) "hello" World.empty)
        ≠ some ["go-log: " ++ "T INFO: hello%!s(MISSING)\n" ++ "\n"] ∧
      fileAfter ((NewLogger "a.log" "T").Info (Clock.unopenable ⟨2, 4⟩) "hello" World.empty)
        "a.log" = none := by
  decide

/-! ### Formatted emission -/

/-- C6, as stated, fails: with the time format `value=42`, at minute 4 of an
hour on the 2nd day of a month, the clock renders `value=42`, and the record
that `Infof("value=%d", 42)` appends on a logger with threshold DEBUG contains
`value=42` twice. -/
theorem Infof_value_occurs_twice :
    (NewLogger "a.log" "value=42").level ≤ info ∧
      fileAfter ((NewLogger "a.log" "value=42").Infof (Clock.succeeding ⟨2, 4⟩) "value=%d"
        [.int 42] World.empty) "a.log" = some "value=42 INFO: value=42%!s(MISSING)\n" ∧
      occurrences "value=42" "value=42 INFO: value=42%!s(MISSING)\n" = 2 := by
  decide

/-- C6, amended: for every logger whose threshold is at most INFO and whose file
can be opened and written, `Infof("value=%d", 42)` returns and appends one
record, which ends in a newline, carries the label `INFO` right after the
rendered time and contains `value=42` exactly once more often than the rendered
time does, so exactly once when the rendered time does not contain it. Each
formatted form is the plain form applied to the result of `fmt.Sprintf` on the
template and the values. -/
theorem Infof_value_record (env : Env) (l : Logger) (w : World)
    (hlevel : l.level ≤ info) (hopen : env.openFails = false)
    (hwrite : env.writeFails = none) :
    (∃ w1 record rest, l.Infof env "value=%d" [.int 42] w = .ok w1 ∧
      w1.files l.filename = some (w.content l.filename ++ record) ∧
      record.data.getLast? = some '\n' ∧
      record = env.now l.timeformat ++ " INFO: value=42" ++ rest ∧
      occurrences "value=42" record = occurrences "value=42" (env.now l.timeformat) + 1 ∧
      (occurrences "value=42" (env.now l.timeformat) = 0 → occurrences "value=42" record = 1)) ∧
    (∀ (t : String) (vs : List Value),
      l.Debugf env t vs w = (Sprintf t vs >>= fun message => l.Debug env message w) ∧
      l.Infof env t vs w = (Sprintf t vs >>= fun message => l.Info env message w) ∧
      l.Warnf env t vs w = (Sprintf t vs >>= fun message => l.Warn env message w) ∧
      l.Errorf env t vs w = (Sprintf t vs >>= fun message => l.Error env message w) ∧
      l.Fatalf env t vs w = (Sprintf t vs >>= fun message => l.Fatal env message w)) := by
  refine ⟨?_, fun t vs => ⟨rfl, rfl, rfl, rfl, rfl⟩⟩
  obtain ⟨w1, name, hlog, hname, hfiles, -⟩ :=
    log_written env l info "value=42" w hlevel hopen hwrite
  have hinfo : name = "INFO" := by
    have h1 : Level.toString info = .ok "INFO" := by decide
    rw [h1] at hname
    exact (Except.ok.inj hname).symm
  subst hinfo
  have hcall : l.Infof env "value=%d" [.int 42] w = l.log env info "value=42" w := by
    have hfmt : Sprintf "value=%d" [.int 42] = .ok "value=42" := by decide
    simp [Logger.Infof, hfmt, bind, Except.bind]
  have hshape : env.now l.timeformat ++ " " ++ "INFO" ++ ": " ++ "value=42" ++ "%!s(MISSING)\n"
      = env.now l.timeformat ++ " INFO: value=42" ++ "%!s(MISSING)\n" := by
    simp only [String.append_assoc]
    rfl
  have hcount : occurrences "value=42"
      (env.now l.timeformat ++ " INFO: value=42" ++ "%!s(MISSING)\n")
      = occurrences "value=42" (env.now l.timeformat) + 1 := by
    have hdata : (env.now l.timeformat ++ " INFO: value=42" ++ "%!s(MISSING)\n").toList
        = (env.now l.timeformat).toList ++ ' ' :: "INFO: value=42%!s(MISSING)\n".toList := by
      simp [String.toList, String.data_append]
    unfold occurrences
    rw [hdata, countP_tails_append_space "value=42".toList (by decide) (by decide)]
    congr 1
  refine ⟨w1, _, "%!s(MISSING)\n", hcall.trans hlog, ?_, getLast_of_line _, rfl, hcount, ?_⟩
  · rw [hfiles, ← hshape]
    simp [World.appendFile]
  · intro h0
    rw [hcount, h0]

/-- C6, amended, at a fresh logger whose time format renders as `T`. -/
theorem Infof_value_record_witness :
    ((NewLogger "a.log" "T").level ≤ info ∧ (Clock.succeeding ⟨2, 4⟩).openFails = false ∧
      (Clock.succeeding ⟨2, 4⟩).writeFails = none) ∧
    ∃ w1 record rest, (NewLogger "a.log" "T").Infof (Clock.succeeding ⟨2, 4⟩) "value=%d"
        [.int 42] World.empty = .ok w1 ∧
      w1.files (NewLogger "a.log" "T").filename
        = some (World.empty.content (NewLogger "a.log" "T").filename ++ record) ∧
      record.data.getLast? = some '\n' ∧
      record = (Clock.succeeding ⟨2, 4⟩).now (NewLogger "a.log" "T").timeformat
        ++ " INFO: value=42" ++ rest ∧
      occurrences "value=42" record
        = occurrences "value=42" ((Clock.succeeding ⟨2, 4⟩).now
            (NewLogger "a.log" "T").timeformat) + 1 ∧
      (occurrences "value=42" ((Clock.succeeding ⟨2, 4⟩).now
          (NewLogger "a.log" "T").timeformat) = 0 → occurrences "value=42" record = 1) :=
  ⟨⟨by decide, rfl, rfl⟩, (Infof_value_record (Clock.succeeding ⟨2, 4⟩) (NewLogger "a.log" "T")
    World.empty (by decide) rfl rfl).1⟩

/-! ### Reachable loggers -/

/-- C10: a logger built by `NewLogger` starts with the threshold DEBUG, and after
any finite sequence of `SetLevel`, `TimeFormat` and emission calls its threshold
is one of the five severities 0..4. So a fresh logger filters out no message of
the five severities, and no reachable logger filters out `Fatal` or `Fatalf`,
whatever strings `SetLevel` was given: the guard of `log` is false and the call
never returns the world untouched, as a filtered call does. -/
theorem reachable_threshold_valid (filename timeformat : String) (calls : List Call) :
    (NewLogger filename timeformat).level = debug ∧
      debug ≤ ((NewLogger filename timeformat).afterCalls calls).level ∧
      ((NewLogger filename timeformat).afterCalls calls).level ≤ fatal ∧
      (∀ S : Level, debug ≤ S → ∀ env m w, ¬ S < (NewLogger filename timeformat).level ∧
        (NewLogger filename timeformat).log env S m w ≠ .ok w) ∧
      ¬ fatal < ((NewLogger filename timeformat).afterCalls calls).level ∧
      (∀ env m w, ((NewLogger filename timeformat).afterCalls calls).Fatal env m w ≠ .ok w) ∧
      (∀ env t vs w,
        ((NewLogger filename timeformat).afterCalls calls).Fatalf env t vs w ≠ .ok w) := by
  have hrange := afterCalls_level_range calls (NewLogger filename timeformat)
    ⟨le_refl _, show debug ≤ fatal by decide⟩
  refine ⟨rfl, hrange.1, hrange.2, ?_, not_lt.mpr hrange.2, ?_, ?_⟩
  · intro S hS env m w
    exact ⟨not_lt.mpr hS, log_unfiltered_leaves_trace env _ S m w hS⟩
  · intro env m w
    exact log_unfiltered_leaves_trace env _ fatal m w hrange.2
  · intro env t vs w
    unfold Logger.Fatalf
    cases hfmt : Sprintf t vs with
    | error f => exact fun h => by cases h
    | ok message => exact log_unfiltered_leaves_trace env _ fatal message w hrange.2

/-- C10, at a logger that was given `SetLevel("FATAL")`, an `Info` call and then
`SetLevel("verbose")`: a WARN message passes the filter of a fresh logger, and
the threshold reached is between DEBUG and FATAL. -/
theorem reachable_threshold_valid_witness :
    debug ≤ warn ∧
      (¬ warn < (NewLogger "a.log" "T").level ∧
        (NewLogger "a.log" "T").log (Clock.succeeding ⟨2, 4⟩) warn "disk" World.empty
          ≠ .ok World.empty) ∧
      debug ≤ ((NewLogger "a.log" "T").afterCalls
        [.SetLevel "FATAL", .Info "started", .SetLevel "verbose"]).level :=
  ⟨by decide,
    (reachable_threshold_valid "a.log" "T" []).2.2.2.1 warn (by decide)
      (Clock.succeeding ⟨2, 4⟩) "disk" World.empty,
    (reachable_threshold_valid "a.log" "T"
      [.SetLevel "FATAL", .Info "started", .SetLevel "verbose"]).2.1⟩

end GoLog
